import Mathlib

/-!
# Verification of the text-feature preparation pipeline (`src/01_prepare_data.py`)

A shallow embedding of the data-preparation script of the
Amazon_Price_Prediction repository, together with theorems settling the
specification claims about it.

The script's pandas/regex operations are embedded as executable Lean
functions over `List`-based tables:

* python floats that may be NaN are modelled as `Option ℚ` (`none` = NaN);
* a pandas `DataFrame` is modelled as a header plus row-major cell lists;
* the three regular expressions (`pack_regex`, `value_regex`, `unit_regex`)
  are embedded as explicit left-to-right searches with the exact
  alternation, greediness and backtracking behaviour of Python `re.search`
  on these patterns (restricted to ASCII, which is all the patterns use);
* `Series.astype(float)` failures (`ValueError`) are modelled with
  `Except String`.
-/

namespace AmazonPrep

/-! ## Python character classes (ASCII fragment, as used by the script) -/

/-- Python `\s` (ASCII part): space, tab, newline, carriage return,
vertical tab, form feed. -/
def isPySpace (c : Char) : Bool :=
  c == ' ' || c == '\t' || c == '\n' || c == '\r' || c == '\x0b' || c == '\x0c'

/-- Python `\w` (ASCII part): letters, digits, underscore. -/
def isPyWord (c : Char) : Bool :=
  c.isAlphanum || c == '_'

/-- Python character class `[\w\s]` used by `unit_regex`. -/
def isPyWordSpace (c : Char) : Bool :=
  isPyWord c || isPySpace c

/-- Case-insensitive "the pattern `p` matches at the start of `l`"
(Python `re.IGNORECASE` literal matching, ASCII). -/
def ciStarts : List Char → List Char → Bool
  | [], _ => true
  | _ :: _, [] => false
  | p :: ps, c :: cs => (p.toLower == c.toLower) && ciStarts ps cs

/-- Does the literal pattern `pat` occur (case-insensitively) anywhere in
`l`?  This is exactly "some suffix of `l` starts with `pat`". -/
def occursInCI (pat : List Char) : List Char → Bool
  | [] => ciStarts pat []
  | c :: rest => ciStarts pat (c :: rest) || occursInCI pat rest

/-- `re.search` driver: try to match at each position, left to right, and
return the first success. -/
def regexSearch {α : Type} (tryAt : List Char → Option α) : List Char → Option α
  | [] => tryAt []
  | c :: rest =>
    match tryAt (c :: rest) with
    | some v => some v
    | none => regexSearch tryAt rest

/-- Digits-to-number, for a captured `\d+` group. -/
def digitsToNat (l : List Char) : ℕ :=
  l.foldl (fun a c => 10 * a + (c.toNat - 48)) 0

/-! ## `pack_regex = r'(?:pack of|count|per case|pack)\s*\(?(\d+)\)?'`

At one start position the regex tries the four alternatives in order; each
alternative is followed by `\s*\(?(\d+)\)?`.  The classes `\s`, `(` and
`\d` are pairwise disjoint, so greedy matching without backtracking inside
the continuation is equivalent to Python's behaviour. -/

/-- One alternative of `pack_regex` at a fixed position: the qualifier
literal `q`, then `\s*\(?(\d+)\)?`; returns the captured integer. -/
def tryQual (q l : List Char) : Option ℚ :=
  if ciStarts q l then
    let rest := l.drop q.length
    let rest2 := rest.dropWhile isPySpace
    let rest3 :=
      match rest2 with
      | '(' :: r => r
      | _ => rest2
    let ds := rest3.takeWhile Char.isDigit
    match ds with
    | [] => none
    | _ :: _ => some (digitsToNat ds : ℚ)
  else none

/-- `pack_regex` at one start position (alternation order as written in the
source: `pack of`, `count`, `per case`, `pack`). -/
def packTryAt (l : List Char) : Option ℚ :=
  match tryQual "pack of".toList l with
  | some v => some v
  | none =>
  match tryQual "count".toList l with
  | some v => some v
  | none =>
  match tryQual "per case".toList l with
  | some v => some v
  | none => tryQual "pack".toList l

/-- `re.search(pack_regex, s)`: captured group as a number. -/
def packSearch (s : String) : Option ℚ :=
  regexSearch packTryAt s.toList

/-! ## `value_regex = r'value:\s*([\d\.]+)'` -/

/-- `value_regex` at one start position; returns the captured `[\d\.]+`
run (a string, converted to float later by `astype`). -/
def valueTryAt (l : List Char) : Option String :=
  if ciStarts "value:".toList l then
    let rest := l.drop 6
    let rest2 := rest.dropWhile isPySpace
    let cap := rest2.takeWhile (fun c => c.isDigit || c == '.')
    match cap with
    | [] => none
    | _ :: _ => some ⟨cap⟩
  else none

/-- `re.search(value_regex, s)`: captured group as a string. -/
def valueSearch (s : String) : Option String :=
  regexSearch valueTryAt s.toList

/-! ## `unit_regex = r'unit:\s*([\w\s]+)'`

Here `\s ⊆ [\w\s]`, so backtracking matters: if the greedy `\s*` leaves
no `[\w\s]` character, the engine gives back the last whitespace character
and the capture becomes exactly that one character. -/

/-- `unit_regex` at one start position; returns the captured run. -/
def unitTryAt (l : List Char) : Option String :=
  if ciStarts "unit:".toList l then
    let rest := l.drop 5
    let ws := rest.takeWhile isPySpace
    let rest2 := rest.drop ws.length
    let cap := rest2.takeWhile isPyWordSpace
    match cap with
    | _ :: _ => some ⟨cap⟩
    | [] =>
      match ws.reverse with
      | c :: _ => some ⟨[c]⟩
      | [] => none
  else none

/-- `re.search(unit_regex, s)`: captured group as a string. -/
def unitSearch (s : String) : Option String :=
  regexSearch unitTryAt s.toList

/-! ## Python string helpers -/

/-- Python `str.strip()` (ASCII whitespace). -/
def pyStrip (s : String) : String :=
  ⟨((s.toList.dropWhile isPySpace).reverse.dropWhile isPySpace).reverse⟩

/-- Python `str.lower()` (ASCII). -/
def pyLower (s : String) : String :=
  ⟨s.toList.map Char.toLower⟩

/-- Python `float(s)` for a string drawn from the class `[\d\.]+`:
defined iff there is at most one dot and at least one digit. -/
def pyFloat? (s : String) : Option ℚ :=
  let cs := s.toList
  if cs.isEmpty then none
  else if !(cs.all fun c => c.isDigit || c == '.') then none
  else if 1 < cs.count '.' then none
  else if !(cs.any Char.isDigit) then none
  else
    let intPart := cs.takeWhile (fun c => c != '.')
    let rest := cs.drop intPart.length
    match rest with
    | [] => some (digitsToNat intPart : ℚ)
    | _ :: frac =>
      some ((digitsToNat intPart : ℚ) + (digitsToNat frac : ℚ) / (10 : ℚ) ^ frac.length)

/-! ## Per-row extraction (`extract_features`, lines 70-78)

`pack_sizes = extract(pack_regex).fillna(1).astype(float)` — the captured
group is `\d+`, so the `astype` conversion cannot fail;
`values = extract(value_regex).fillna(0).astype(float)` — conversion of a
captured `[\d\.]+` group can raise `ValueError`;
`units = extract(unit_regex).fillna('Unknown').str.strip().str.lower()`. -/

/-- Pack size of one row (`1.0` when the pattern does not match). -/
def packOf (s : String) : ℚ :=
  match packSearch s with
  | some v => v
  | none => 1

/-- Measure value of one row; `Except.error` models the `ValueError`
raised by `astype(float)` on an unconvertible captured string. -/
def valueOf (s : String) : Except String ℚ :=
  match valueSearch s with
  | none => .ok 0
  | some cap =>
    match pyFloat? cap with
    | some q => .ok q
    | none => .error ("could not convert string to float: " ++ cap)

/-- Unit token of one row (`"unknown"` when the pattern does not match). -/
def unitOf (s : String) : String :=
  pyLower (pyStrip ((unitSearch s).getD "Unknown"))

/-- `mapM` over `Except`, written out so that its length behaviour is easy
to reason about (this is how the whole-column `astype(float)` either
produces a full column or raises). -/
def exMapM {α β : Type} (f : α → Except String β) : List α → Except String (List β)
  | [] => .ok []
  | a :: as =>
    match f a with
    | .error e => .error e
    | .ok b =>
      match exMapM f as with
      | .error e => .error e
      | .ok bs => .ok (b :: bs)

/-- `extract_features` (lines 70-78): three parallel columns from the text
column, or the `ValueError` of the value column's `astype(float)`. -/
def extract_features (texts : List String) : Except String (List ℚ × List ℚ × List String) :=
  match exMapM valueOf texts with
  | .error e => .error e
  | .ok vals => .ok (texts.map packOf, vals, texts.map unitOf)

/-! ## Series and statistics

A float64 pandas Series is a list of `Option ℚ` cells (`none` = NaN). -/

/-- `Series.fillna(v)`: replace NaN cells by `v`.  When `v` itself is NaN
(`none`) this is a no-op, exactly as in pandas. -/
def fillnaSeries (col : List (Option ℚ)) (v : Option ℚ) : List (Option ℚ) :=
  col.map fun c => c.orElse fun _ => v

/-- Insertion into a sorted `ℚ` list. -/
def insertQ (x : ℚ) : List ℚ → List ℚ
  | [] => [x]
  | y :: ys => if x ≤ y then x :: y :: ys else y :: insertQ x ys

/-- Insertion sort on `ℚ`. -/
def sortQ : List ℚ → List ℚ
  | [] => []
  | x :: xs => insertQ x (sortQ xs)

/-- `Series.median()` (default `skipna=True`): NaN on an empty (or
all-NaN) column, middle element for odd length, mean of the two middle
elements for even length. -/
def median (col : List (Option ℚ)) : Option ℚ :=
  let vals := sortQ (col.filterMap id)
  let n := vals.length
  if n = 0 then none
  else if n % 2 = 1 then some (vals.getD (n / 2) 0)
  else some ((vals.getD (n / 2 - 1) 0 + vals.getD (n / 2) 0) / 2)

/-! ## Categorical encoding and the feature frame (`create_feature_df`) -/

/-- Insertion into a lexicographically sorted string list. -/
def insertStr (x : String) : List String → List String
  | [] => [x]
  | y :: ys => if compare x y == Ordering.gt then y :: insertStr x ys else x :: y :: ys

/-- Insertion sort on strings (ascending code-point order, as
`pandas.get_dummies` sorts its category values). -/
def sortStr : List String → List String
  | [] => []
  | x :: xs => insertStr x (sortStr xs)

/-- `pd.get_dummies(units, prefix='unit', dummy_na=False)`: one boolean
indicator column per distinct unit value, columns sorted by value and
named `"unit_" ++ value`. -/
def get_dummies_unit (units : List String) : List (String × List Bool) :=
  (sortStr units.dedup).map fun u => ("unit_" ++ u, units.map fun v => v == u)

/-- The feature table built by `create_feature_df` after the `unit`
column is expanded and dropped: the two numeric columns plus the unit
indicator columns, in that order. -/
structure FeatureDf where
  pack_size : List (Option ℚ)
  total_measure : List (Option ℚ)
  unitCols : List (String × List Bool)
deriving Repr, DecidableEq

/-- Column names of a feature table, in pandas order. -/
def featureCols (f : FeatureDf) : List String :=
  "pack_size" :: "total_measure" :: f.unitCols.map Prod.fst

/-- `create_feature_df(df, median_measure, median_pack_size)`
(lines 80-107): extract the three raw columns, expand the unit dummies,
compute each median only when the corresponding argument is Python
`None` (outer `Option`), then fill NaNs of the two numeric columns with
the medians.  Returns the frame and the medians actually used, as the
script does.  The error case is the `ValueError` of `astype(float)`. -/
def create_feature_df (texts : List String) (median_measure median_pack_size : Option (Option ℚ)) :
    Except String (FeatureDf × Option ℚ × Option ℚ) :=
  match extract_features texts with
  | .error e => .error e
  | .ok (packs, vals, units) =>
    let packCol : List (Option ℚ) := packs.map some
    let valCol : List (Option ℚ) := vals.map some
    let dummies := get_dummies_unit units
    let mm := median_measure.getD (median valCol)
    let mp := median_pack_size.getD (median packCol)
    .ok (⟨fillnaSeries packCol mp, fillnaSeries valCol mm, dummies⟩, mm, mp)

/-! ## Schema reconciliation (`align(..., join='inner', axis=1)`, line 119) -/

/-- `train_features_df.align(test_features_df, join='inner', axis=1)`:
restrict both frames to the intersection of their column sets, in one
common order; the numeric columns are always shared, and the second
frame's data for a shared indicator column is looked up by name.
`fill_value=0` is irrelevant for an inner join: nothing is filled. -/
def alignInner (a b : FeatureDf) : FeatureDf × FeatureDf :=
  let commonA := a.unitCols.filter fun c => b.unitCols.any fun d => d.1 == c.1
  let bCols := commonA.map fun c =>
    (c.1, match b.unitCols.find? (fun d => d.1 == c.1) with
          | some d => d.2
          | none => [])
  (⟨a.pack_size, a.total_measure, commonA⟩, ⟨b.pack_size, b.total_measure, bCols⟩)

/-! ## The tabular model of the loaded CSVs and the driver -/

/-- One cell of a loaded table. -/
inductive Cell where
  | num (q : ℚ)
  | nan
  | str (s : String)
  | bool (b : Bool)
deriving Repr, DecidableEq

/-- A pandas DataFrame: a header and row-major cells. -/
structure Df where
  header : List String
  rows : List (List Cell)
deriving Repr, DecidableEq

/-- `astype(str)` coercion of one cell (NaN becomes the literal string
`"nan"`; the numeric rendering is a stand-in for Python's float `repr`,
which no claim depends on — the catalog column is text). -/
def cellToPyStr : Cell → String
  | .str s => s
  | .nan => "nan"
  | .num q => toString q
  | .bool b => if b then "True" else "False"

/-- Numeric view of a cell (`none` = NaN / non-numeric). -/
def cellToQ : Cell → Option ℚ
  | .num q => some q
  | .bool b => some (if b then 1 else 0)
  | _ => none

/-- `df[name]`: the named column, or a `KeyError`. -/
def getColE (df : Df) (n : String) : Except String (List Cell) :=
  match df.header.findIdx? (· == n) with
  | none => .error ("KeyError: " ++ n)
  | some i => .ok (df.rows.map fun r => r.getD i Cell.nan)

/-- `df.drop(name, axis=1)`: remove the named column, or a `KeyError`. -/
def dropColE (df : Df) (n : String) : Except String Df :=
  match df.header.findIdx? (· == n) with
  | none => .error ("KeyError: " ++ n)
  | some i => .ok ⟨df.header.eraseIdx i, df.rows.map fun r => r.eraseIdx i⟩

/-- `pd.concat([a, b], axis=1)` for two frames carrying the same range
index (as in the script: features are derived row-for-row from the
original frame). -/
def hconcat (a b : Df) : Df :=
  ⟨a.header ++ b.header, List.zipWith (· ++ ·) a.rows b.rows⟩

/-- View a feature frame as a `Df` (row-major). -/
def featureDfToDf (f : FeatureDf) : Df :=
  ⟨featureCols f,
   (List.range f.pack_size.length).map fun i =>
     (match f.pack_size.getD i none with | some q => Cell.num q | none => Cell.nan) ::
     (match f.total_measure.getD i none with | some q => Cell.num q | none => Cell.nan) ::
     f.unitCols.map fun c => Cell.bool (c.2.getD i false)⟩

/-- The two final tables (before the train-only `log_price` column). -/
structure PipelineOutput where
  trainBase : Df
  testBase : Df
deriving Repr, DecidableEq

/-- The feature pipeline after loading and the row-count check
(lines 59-133 of the script): extract and encode both tables, fit the
medians on train, apply them to test, align the feature columns by inner
join, drop `image_link` from the originals and concatenate the aligned
features column-wise. -/
def prepare (train test : Df) : Except String PipelineOutput :=
  match getColE train "catalog_content" with
  | .error e => .error e
  | .ok tcTr =>
  match getColE test "catalog_content" with
  | .error e => .error e
  | .ok tcTe =>
  match create_feature_df (tcTr.map cellToPyStr) none none with
  | .error e => .error e
  | .ok (ftr, mm, mp) =>
  match create_feature_df (tcTe.map cellToPyStr) (some mm) (some mp) with
  | .error e => .error e
  | .ok (fte, _, _) =>
  match dropColE train "image_link" with
  | .error e => .error e
  | .ok trD =>
  match dropColE test "image_link" with
  | .error e => .error e
  | .ok teD =>
    let aligned := alignInner ftr fte
    .ok ⟨hconcat trD (featureDfToDf aligned.1), hconcat teD (featureDfToDf aligned.2)⟩

/-! ## The train-only `log_price` target (lines 135-136) -/

/-- `np.log1p` over a price column: `log(1 + price)` per cell, NaN on a
non-numeric cell. -/
noncomputable def log1pSeries (cells : List Cell) : List (Option ℝ) :=
  cells.map fun c => (cellToQ c).map fun q => Real.log (1 + (q : ℝ))

/-- `train_final['log_price'] = np.log1p(train_final['price'])`: the
derived target column of the final train table. -/
noncomputable def trainLogPriceE (df : Df) : Except String (List (Option ℝ)) :=
  (getColE df "price").map log1pSeries

/-- Header of the final train table: the concatenated base columns plus
the appended `log_price`. -/
def trainFinalHeader (out : PipelineOutput) : List String :=
  out.trainBase.header ++ ["log_price"]

/-- Header of the final test table (no `log_price` is added). -/
def testFinalHeader (out : PipelineOutput) : List String :=
  out.testBase.header

/-! ## The whole script (load, verify, transform, save) -/

/-- Diagnostic of the `except` branch around CSV loading (lines 51-56). -/
def loadErrMsg : String := "*** CRITICAL ERROR LOADING CSV ***"

/-- Diagnostic of the row-count check (lines 43-49). -/
def rowCountErrMsg : String := "*** CRITICAL WARNING *** train.csv is incomplete"

/-- Path of the persisted train output. -/
def trainOutPath : String := "data/processed/train_processed.parquet"

/-- Path of the persisted test output. -/
def testOutPath : String := "data/processed/test_processed.parquet"

instance {ε α : Type} [DecidableEq ε] [DecidableEq α] : DecidableEq (Except ε α) := fun
  | .error e, .error f =>
    match decEq e f with
    | isTrue h => isTrue (h ▸ rfl)
    | isFalse h => isFalse fun hh => h (by cases hh; rfl)
  | .error _, .ok _ => isFalse fun hh => by cases hh
  | .ok _, .error _ => isFalse fun hh => by cases hh
  | .ok a, .ok b =>
    match decEq a b with
    | isTrue h => isTrue (h ▸ rfl)
    | isFalse h => isFalse fun hh => h (by cases hh; rfl)

/-- Observable result of one script run: the files written and either
the produced tables or the diagnostic the run aborted with. -/
structure ScriptResult where
  written : List String
  result : Except String PipelineOutput
deriving Repr, DecidableEq

/-- The script end to end.  The two arguments are the outcomes of the
two `pd.read_csv` calls (external collaborators).  Any load failure
aborts with the load diagnostic; a train table below 75,000 rows aborts
with the distinct row-count diagnostic before any feature work; an
extraction `ValueError` aborts before anything is written; otherwise both
parquet files are written. -/
def runScript (loadTrain loadTest : Except String Df) : ScriptResult :=
  match loadTrain with
  | .error _ => ⟨[], .error loadErrMsg⟩
  | .ok train =>
  match loadTest with
  | .error _ => ⟨[], .error loadErrMsg⟩
  | .ok test =>
    if train.rows.length < 75000 then ⟨[], .error rowCountErrMsg⟩
    else
      match prepare train test with
      | .error e => ⟨[], .error e⟩
      | .ok out => ⟨[trainOutPath, testOutPath], .ok out⟩

/-! ## Concrete tables used to instantiate the claims -/

/-- Encoded feature frame of the train texts
`["unit: oz", "unit: lb", "unit: oz"]` (units {oz, lb}). -/
def ozlbF : FeatureDf :=
  ⟨[some 1, some 1, some 1], [some 0, some 0, some 0],
   [("unit_lb", [false, true, false]), ("unit_oz", [true, false, true])]⟩

/-- Encoded feature frame of the test texts
`["unit: oz", "unit: ml", "unit: ml"]` (units {oz, ml}). -/
def ozmlF : FeatureDf :=
  ⟨[some 1, some 1, some 1], [some 0, some 0, some 0],
   [("unit_ml", [false, true, true]), ("unit_oz", [true, false, false])]⟩

/-- A one-row train table. -/
def wTrain : Df :=
  ⟨["catalog_content", "price", "image_link"],
   [[Cell.str "", Cell.num 5, Cell.str "img"]]⟩

/-- A one-row test table. -/
def wTest : Df :=
  ⟨["catalog_content", "image_link"],
   [[Cell.str "", Cell.str "img"]]⟩

/-- `prepare wTrain wTest` evaluates to exactly this output. -/
def wOut : PipelineOutput :=
  ⟨⟨["catalog_content", "price", "pack_size", "total_measure", "unit_unknown"],
    [[Cell.str "", Cell.num 5, Cell.num 1, Cell.num 0, Cell.bool true]]⟩,
   ⟨["catalog_content", "pack_size", "total_measure", "unit_unknown"],
    [[Cell.str "", Cell.num 1, Cell.num 0, Cell.bool true]]⟩⟩

/-- A train table with zero rows. -/
def wEmptyTrain : Df :=
  ⟨["catalog_content", "price", "image_link"], []⟩

/-- A 50,000-row train table (below the 75,000-row minimum). -/
def wSmallTrain : Df :=
  ⟨["catalog_content", "price", "image_link"],
   List.replicate 50000 [Cell.str "", Cell.num 1, Cell.str "img"]⟩

/-! ## Search lemmas -/

theorem ciStarts_append_left (p1 p2 l : List Char) (h : ciStarts (p1 ++ p2) l = true) :
    ciStarts p1 l = true := by
  induction p1 generalizing l with
  | nil => rfl
  | cons p ps ih =>
    cases l with
    | nil => simp [ciStarts] at h
    | cons c cs =>
      simp only [List.cons_append, ciStarts, Bool.and_eq_true] at h ⊢
      exact ⟨h.1, ih cs h.2⟩

theorem occursInCI_cons_false {pat : List Char} {c : Char} {rest : List Char}
    (h : occursInCI pat (c :: rest) = false) :
    ciStarts pat (c :: rest) = false ∧ occursInCI pat rest = false := by
  simpa [occursInCI] using h

theorem regexSearch_eq_some {α : Type} {tryAt : List Char → Option α} {l : List Char} {v : α}
    (h : regexSearch tryAt l = some v) : ∃ sfx, tryAt sfx = some v := by
  induction l with
  | nil => exact ⟨[], h⟩
  | cons c rest ih =>
    simp only [regexSearch] at h
    cases htry : tryAt (c :: rest) with
    | some w =>
      rw [htry] at h
      exact ⟨c :: rest, by rw [htry]; exact h⟩
    | none =>
      rw [htry] at h
      exact ih h

theorem packSearch_eq_none {l : List Char}
    (h1 : occursInCI "pack".toList l = false)
    (h2 : occursInCI "count".toList l = false)
    (h3 : occursInCI "per case".toList l = false) :
    regexSearch packTryAt l = none := by
  induction l with
  | nil => rfl
  | cons c rest ih =>
    obtain ⟨hp1, hp2⟩ := occursInCI_cons_false h1
    obtain ⟨hc1, hc2⟩ := occursInCI_cons_false h2
    obtain ⟨hr1, hr2⟩ := occursInCI_cons_false h3
    have hpo : ciStarts "pack of".toList (c :: rest) = false := by
      cases hcs : ciStarts "pack of".toList (c :: rest) with
      | false => rfl
      | true =>
        have hh : ciStarts "pack".toList (c :: rest) = true :=
          ciStarts_append_left "pack".toList " of".toList (c :: rest) hcs
        rw [hp1] at hh
        exact Bool.noConfusion hh
    simp only [regexSearch]
    have ht : packTryAt (c :: rest) = none := by
      unfold packTryAt tryQual
      rw [hpo, hp1, hc1, hr1]
      rfl
    rw [ht]
    exact ih hp2 hc2 hr2

theorem valueSearch_eq_none {l : List Char}
    (h : occursInCI "value:".toList l = false) :
    regexSearch valueTryAt l = none := by
  induction l with
  | nil => rfl
  | cons c rest ih =>
    obtain ⟨h1, h2⟩ := occursInCI_cons_false h
    simp only [regexSearch]
    have ht : valueTryAt (c :: rest) = none := by
      unfold valueTryAt
      rw [h1]
      rfl
    rw [ht]
    exact ih h2

theorem unitSearch_eq_none {l : List Char}
    (h : occursInCI "unit:".toList l = false) :
    regexSearch unitTryAt l = none := by
  induction l with
  | nil => rfl
  | cons c rest ih =>
    obtain ⟨h1, h2⟩ := occursInCI_cons_false h
    simp only [regexSearch]
    have ht : unitTryAt (c :: rest) = none := by
      unfold unitTryAt
      rw [h1]
      rfl
    rw [ht]
    exact ih h2

theorem mem_of_reverse_eq_cons {α : Type} {x : α} {xs l : List α}
    (heq : l.reverse = x :: xs) : x ∈ l := by
  have hx : x ∈ l.reverse := by
    rw [heq]
    exact List.mem_cons_self x xs
  simpa using hx

theorem unitTryAt_capture_wordspace {l : List Char} {cap : String}
    (h : unitTryAt l = some cap) : cap.toList.all isPyWordSpace = true := by
  simp only [unitTryAt] at h
  split at h
  · split at h
    · next x xs heq =>
      injection h with h
      subst h
      simp only [List.all_eq_true]
      intro d hd
      exact List.mem_takeWhile_imp hd
    · split at h
      · next c0 cs0 heq =>
        injection h with h
        subst h
        simp only [List.all_eq_true]
        intro d hd
        have hd0 : d ∈ [c0] := hd
        have hd1 : d = c0 := by simpa using hd0
        subst hd1
        have hmem := mem_of_reverse_eq_cons heq
        have := List.mem_takeWhile_imp hmem
        simp [isPyWordSpace, this]
      · cases h
  · cases h

/-! ## Column-operation lemmas -/

theorem exMapM_ok_length {α β : Type} {f : α → Except String β} :
    ∀ {l : List α} {bs : List β}, exMapM f l = .ok bs → bs.length = l.length := by
  intro l
  induction l with
  | nil =>
    intro bs h
    injection h with h
    simp [← h]
  | cons a as ih =>
    intro bs h
    unfold exMapM at h
    split at h
    · cases h
    · split at h
      · cases h
      · next bs' heqr =>
        injection h with h
        simp [← h, ih heqr]

theorem extract_features_ok {texts : List String} {ps vs : List ℚ} {us : List String}
    (h : extract_features texts = .ok (ps, vs, us)) :
    ps = texts.map packOf ∧ us = texts.map unitOf ∧ vs.length = texts.length := by
  unfold extract_features at h
  split at h
  · cases h
  · next vals heq =>
    injection h with h
    injection h with h1 h
    injection h with h2 h3
    subst h1
    subst h2
    subst h3
    exact ⟨rfl, rfl, exMapM_ok_length heq⟩

theorem getColE_ok {df : Df} {n : String} {cs : List Cell}
    (h : getColE df n = .ok cs) :
    ∃ j, df.header.findIdx? (· == n) = some j ∧
      cs = df.rows.map (fun r => r.getD j Cell.nan) ∧ cs.length = df.rows.length := by
  unfold getColE at h
  split at h
  · cases h
  · next j heq =>
    injection h with h
    exact ⟨j, heq, h.symm, by simp [← h]⟩

theorem dropColE_ok {df : Df} {n : String} {r : Df}
    (h : dropColE df n = .ok r) :
    ∃ j, df.header.findIdx? (· == n) = some j ∧
      r = ⟨df.header.eraseIdx j, df.rows.map fun row => row.eraseIdx j⟩ := by
  unfold dropColE at h
  split at h
  · cases h
  · next j heq =>
    injection h with h
    exact ⟨j, heq, h.symm⟩

theorem create_feature_df_ok {texts : List String} {mmIn mpIn : Option (Option ℚ)}
    {f : FeatureDf} {m1 m2 : Option ℚ}
    (h : create_feature_df texts mmIn mpIn = .ok (f, m1, m2)) :
    ∃ ps vs us,
      extract_features texts = .ok (ps, vs, us) ∧
      f = ⟨fillnaSeries (ps.map some) m2, fillnaSeries (vs.map some) m1, get_dummies_unit us⟩ ∧
      m1 = mmIn.getD (median (vs.map some)) ∧
      m2 = mpIn.getD (median (ps.map some)) := by
  unfold create_feature_df at h
  split at h
  · cases h
  · next packs vals units heq =>
    injection h with h
    injection h with h1 h
    injection h with h2 h3
    exact ⟨packs, vals, units, heq, by rw [← h1, ← h2, ← h3], h2.symm, h3.symm⟩

theorem create_feature_df_ok_lengths {texts : List String} {mmIn mpIn : Option (Option ℚ)}
    {f : FeatureDf} {m1 m2 : Option ℚ}
    (h : create_feature_df texts mmIn mpIn = .ok (f, m1, m2)) :
    f.pack_size.length = texts.length ∧ f.total_measure.length = texts.length := by
  obtain ⟨ps, vs, us, hex, hf, -, -⟩ := create_feature_df_ok h
  obtain ⟨hps, -, hvs⟩ := extract_features_ok hex
  subst hf
  constructor
  · simp [fillnaSeries, hps]
  · simp [fillnaSeries, hvs]

theorem create_feature_df_ok_unit_names {texts : List String} {mmIn mpIn : Option (Option ℚ)}
    {f : FeatureDf} {m1 m2 : Option ℚ}
    (h : create_feature_df texts mmIn mpIn = .ok (f, m1, m2)) :
    ∀ c ∈ f.unitCols, ∃ u, c.1 = "unit_" ++ u := by
  obtain ⟨ps, vs, us, hex, hf, -, -⟩ := create_feature_df_ok h
  subst hf
  intro c hc
  simp only [get_dummies_unit, List.mem_map] at hc
  obtain ⟨u, -, rfl⟩ := hc
  exact ⟨u, rfl⟩

theorem unit_name_ne_log_price (u : String) : "unit_" ++ u ≠ "log_price" := by
  intro hcontra
  have h2 : ("unit_" ++ u).data = "log_price".data := congrArg String.data hcontra
  rw [String.data_append] at h2
  have h3 : ('u' :: 'n' :: 'i' :: 't' :: '_' :: u.data)
      = ['l', 'o', 'g', '_', 'p', 'r', 'i', 'c', 'e'] := h2
  injection h3 with h4 h5
  exact absurd h4 (by decide)

theorem featureDfToDf_rows_length (f : FeatureDf) :
    (featureDfToDf f).rows.length = f.pack_size.length := by
  simp [featureDfToDf]

theorem alignInner_snd_unitCols_names {a b : FeatureDf} :
    ∀ c ∈ (alignInner a b).2.unitCols, ∃ c0 ∈ a.unitCols, c.1 = c0.1 := by
  intro c hc
  simp only [alignInner, List.mem_map] at hc
  obtain ⟨c0, hc0, rfl⟩ := hc
  exact ⟨c0, (List.mem_filter.mp hc0).1, rfl⟩

theorem prepare_ok {train test : Df} {out : PipelineOutput}
    (h : prepare train test = .ok out) :
    ∃ tcTr tcTe ftr mm mp fte mm2 mp2 jTr jTe,
      getColE train "catalog_content" = .ok tcTr ∧
      getColE test "catalog_content" = .ok tcTe ∧
      create_feature_df (tcTr.map cellToPyStr) none none = .ok (ftr, mm, mp) ∧
      create_feature_df (tcTe.map cellToPyStr) (some mm) (some mp) = .ok (fte, mm2, mp2) ∧
      train.header.findIdx? (· == "image_link") = some jTr ∧
      test.header.findIdx? (· == "image_link") = some jTe ∧
      out.trainBase = hconcat ⟨train.header.eraseIdx jTr, train.rows.map fun r => r.eraseIdx jTr⟩
        (featureDfToDf (alignInner ftr fte).1) ∧
      out.testBase = hconcat ⟨test.header.eraseIdx jTe, test.rows.map fun r => r.eraseIdx jTe⟩
        (featureDfToDf (alignInner ftr fte).2) := by
  unfold prepare at h
  split at h
  · cases h
  · next tcTr heq1 =>
    split at h
    · cases h
    · next tcTe heq2 =>
      split at h
      · cases h
      · next ftr mm mp heq3 =>
        split at h
        · cases h
        · next fte mm2 mp2 heq4 =>
          split at h
          · cases h
          · next trD heq5 =>
            split at h
            · cases h
            · next teD heq6 =>
              injection h with h
              obtain ⟨jTr, hj1, hd1⟩ := dropColE_ok heq5
              obtain ⟨jTe, hj2, hd2⟩ := dropColE_ok heq6
              refine ⟨tcTr, tcTe, ftr, mm, mp, fte, mm2, mp2, jTr, jTe,
                heq1, heq2, heq3, heq4, hj1, hj2, ?_, ?_⟩
              · rw [← h, ← hd1]
              · rw [← h, ← hd2]

/-! ## The claims -/

/-- C3: the spec (and the code's own comment at line 62) promise
`pack_size = 12` for the text `"12 per case"`, but `pack_regex` demands
the integer *after* the qualifier word, so the pattern does not match and
extraction returns the defaults: `pack_size = 1`, `total_measure = 0`
(pre-impute), `unit = "unknown"`.  This theorem evaluates the embedded
code at the failing input. -/
theorem claim_C3_pack_size_of_12_per_case :
    extract_features ["12 per case"] = .ok ([1], [0], ["unknown"]) ∧
    packSearch "12 per case" = none ∧ packOf "12 per case" = 1 := by
  refine ⟨?_, ?_, ?_⟩ <;> decide

/-- C10: extraction is not total: on `"value: ."` the value pattern
captures `"."`, which `astype(float)` cannot convert, so
`extract_features` raises instead of returning the default triple. -/
theorem claim_C10_extraction_not_total :
    extract_features ["value: ."] = .error "could not convert string to float: ." ∧
    valueSearch "value: ." = some "." ∧ pyFloat? "." = none := by
  refine ⟨?_, ?_, ?_⟩ <;> decide

/-- C6: for every input text with no recognizable pack, value or unit
marker (none of the qualifier literals `pack`, `count`, `per case`, nor
the keys `value:`, `unit:`, occurs case-insensitively in the text),
extraction yields exactly `pack_size = 1`, `total_measure = 0`
(pre-impute) and the lowercase sentinel `unit = "unknown"`. -/
theorem claim_C6_no_marker_defaults (s : String)
    (hpack : occursInCI "pack".toList s.toList = false)
    (hcount : occursInCI "count".toList s.toList = false)
    (hpercase : occursInCI "per case".toList s.toList = false)
    (hvalue : occursInCI "value:".toList s.toList = false)
    (hunit : occursInCI "unit:".toList s.toList = false) :
    packOf s = 1 ∧ valueOf s = .ok 0 ∧ unitOf s = "unknown" ∧
    extract_features [s] = .ok ([1], [0], ["unknown"]) := by
  have hp : packSearch s = none := packSearch_eq_none hpack hcount hpercase
  have hv : valueSearch s = none := valueSearch_eq_none hvalue
  have hu : unitSearch s = none := unitSearch_eq_none hunit
  have h1 : packOf s = 1 := by simp [packOf, hp]
  have h2 : valueOf s = .ok 0 := by simp [valueOf, hv]
  have h3 : unitOf s = "unknown" := by
    rw [unitOf, hu]
    decide
  refine ⟨h1, h2, h3, ?_⟩
  simp [extract_features, exMapM, h1, h2, h3]

theorem claim_C6_no_marker_defaults_witness :
    packOf "Fresh Gala Apples, 3 lbs" = 1 ∧
    valueOf "Fresh Gala Apples, 3 lbs" = .ok 0 ∧
    unitOf "Fresh Gala Apples, 3 lbs" = "unknown" ∧
    extract_features ["Fresh Gala Apples, 3 lbs"] = .ok ([1], [0], ["unknown"]) :=
  claim_C6_no_marker_defaults "Fresh Gala Apples, 3 lbs"
    (by decide) (by decide) (by decide) (by decide) (by decide)

/-- C7 counterexample: the claim says a captured unit token consists only
of letters and spaces, but the capture class is `[\w\s]`, which also
accepts digits and underscores: on `"Unit: 5"` the extracted unit token is
`"5"`, which contains no letter and no space. -/
theorem claim_C7_counterexample :
    unitSearch "Unit: 5" = some "5" ∧ unitOf "Unit: 5" = "5" ∧
    ("5".toList.all fun c => c.isAlpha || c == ' ') = false := by
  refine ⟨?_, ?_, ?_⟩ <;> decide

/-- C7 (amended): for every input text on which the unit pattern matches,
the captured token is a run of characters from the class `[\w\s]` (word
characters — letters, digits, underscore — and whitespace) following the
key `unit` and a colon matched case-insensitively, and the extracted unit
is that capture stripped of surrounding whitespace and lowercased; if the
pattern does not match, the unit is the sentinel `"unknown"`. -/
theorem claim_C7_unit_token_shape (s : String) :
    (∀ cap : String, unitSearch s = some cap →
      cap.toList.all isPyWordSpace = true ∧ unitOf s = pyLower (pyStrip cap)) ∧
    (unitSearch s = none → unitOf s = "unknown") := by
  constructor
  · intro cap hcap
    obtain ⟨sfx, hsfx⟩ := regexSearch_eq_some hcap
    refine ⟨unitTryAt_capture_wordspace hsfx, ?_⟩
    rw [unitOf, hcap]
    rfl
  · intro hnone
    rw [unitOf, hnone]
    decide

theorem claim_C7_unit_token_shape_witness :
    "5".toList.all isPyWordSpace = true ∧ unitOf "Unit: 5" = pyLower (pyStrip "5") :=
  (claim_C7_unit_token_shape "Unit: 5").1 "5" (by decide)

/-- C1: the imputation statistics used on the test table are the ones
returned by the train fit.  If the train fit (`create_feature_df` with
both medians `None`) produced `(mm, mp)`, then the test application
(`create_feature_df` with those medians passed, as the driver does at
lines 110-115) returns exactly those medians and fills the extracted test
columns with them — the test table's own medians are never consulted.
Moreover a missing (NaN) cell is filled with exactly the fit median. -/
theorem claim_C1_test_impute_uses_train_medians
    (trainTexts testTexts : List String) (ftr : FeatureDf) (mm mp : Option ℚ)
    (hfit : create_feature_df trainTexts none none = .ok (ftr, mm, mp))
    (ps vs : List ℚ) (us : List String)
    (hex : extract_features testTexts = .ok (ps, vs, us))
    (col : List (Option ℚ)) (i : ℕ) (hmiss : col[i]? = some none) :
    create_feature_df trainTexts none none = .ok (ftr, mm, mp) ∧
    create_feature_df testTexts (some mm) (some mp) =
      .ok (⟨fillnaSeries (ps.map some) mp, fillnaSeries (vs.map some) mm,
            get_dummies_unit us⟩, mm, mp) ∧
    (fillnaSeries col mm)[i]? = some mm ∧
    (fillnaSeries col mp)[i]? = some mp := by
  refine ⟨hfit, ?_, ?_, ?_⟩
  · unfold create_feature_df
    rw [hex]
    rfl
  · simp [fillnaSeries, hmiss, Option.orElse]
  · simp [fillnaSeries, hmiss, Option.orElse]

theorem claim_C1_test_impute_uses_train_medians_witness :
    create_feature_df ["value: 10"] none none =
      .ok (⟨[some 1], [some 10], [("unit_unknown", [true])]⟩, some 10, some 1) ∧
    create_feature_df ["value: 99"] (some (some 10)) (some (some 1)) =
      .ok (⟨fillnaSeries ([(1 : ℚ)].map some) (some 1),
            fillnaSeries ([(99 : ℚ)].map some) (some 10),
            get_dummies_unit ["unknown"]⟩, some 10, some 1) ∧
    (fillnaSeries [none] (some (10 : ℚ)))[0]? = some (some 10) ∧
    (fillnaSeries [none] (some (1 : ℚ)))[0]? = some (some 1) :=
  claim_C1_test_impute_uses_train_medians ["value: 10"] ["value: 99"]
    ⟨[some 1], [some 10], [("unit_unknown", [true])]⟩ (some 10) (some 1)
    (by decide) [1] [99] ["unknown"] (by decide) [none] 0 (by decide)

/-- C4: the inner-join alignment restricts both feature tables to exactly
the set intersection of their column names, in one identical order for
both; the shared numeric columns keep their data and every surviving
indicator column of the second table carries the second table's own data
(nothing is zero-filled, columns outside the intersection are dropped).
In particular, on encoded frames for train units {oz, lb} and test units
{oz, ml} (the frames produced by `create_feature_df` on those unit texts),
the reconciled columns are `pack_size`, `total_measure`, `unit_oz`. -/
theorem claim_C4_align_inner_intersection (a b : FeatureDf) :
    featureCols (alignInner a b).1 = featureCols (alignInner a b).2 ∧
    (∀ n : String, n ∈ featureCols (alignInner a b).1 ↔
        n ∈ featureCols a ∧ n ∈ featureCols b) ∧
    (alignInner a b).1.pack_size = a.pack_size ∧
    (alignInner a b).1.total_measure = a.total_measure ∧
    (alignInner a b).2.pack_size = b.pack_size ∧
    (alignInner a b).2.total_measure = b.total_measure ∧
    (∀ c ∈ (alignInner a b).1.unitCols, c ∈ a.unitCols) ∧
    (∀ c ∈ (alignInner a b).2.unitCols, ∃ d ∈ b.unitCols, d.1 = c.1 ∧ d.2 = c.2) ∧
    create_feature_df ["unit: oz", "unit: lb", "unit: oz"] none none =
      .ok (ozlbF, some 0, some 1) ∧
    create_feature_df ["unit: oz", "unit: ml", "unit: ml"] (some (some 0)) (some (some 1)) =
      .ok (ozmlF, some 0, some 1) ∧
    featureCols (alignInner ozlbF ozmlF).1 = ["pack_size", "total_measure", "unit_oz"] ∧
    featureCols (alignInner ozlbF ozmlF).2 = ["pack_size", "total_measure", "unit_oz"] := by
  refine ⟨?_, ?_, rfl, rfl, rfl, rfl, ?_, ?_, by decide, by decide, by decide, by decide⟩
  · simp [alignInner, featureCols, List.map_map, Function.comp]
  · intro n
    constructor
    · intro hn
      simp only [featureCols, List.mem_cons] at hn
      rcases hn with rfl | rfl | hn
      · exact ⟨by simp [featureCols], by simp [featureCols]⟩
      · exact ⟨by simp [featureCols], by simp [featureCols]⟩
      · simp only [alignInner, List.mem_map, List.mem_filter, List.any_eq_true,
          beq_iff_eq] at hn
        obtain ⟨c, ⟨hca, d, hdb, hdc⟩, rfl⟩ := hn
        constructor
        · simp only [featureCols, List.mem_cons, List.mem_map]
          right; right
          exact ⟨c, hca, rfl⟩
        · simp only [featureCols, List.mem_cons, List.mem_map]
          right; right
          exact ⟨d, hdb, hdc⟩
    · rintro ⟨ha', hb'⟩
      simp only [featureCols, List.mem_cons, List.mem_map] at ha' hb' ⊢
      rcases ha' with rfl | rfl | ⟨c, hca, rfl⟩
      · exact Or.inl rfl
      · exact Or.inr (Or.inl rfl)
      · rcases hb' with h | h | ⟨d, hdb, hd1⟩
        · exact Or.inl h
        · exact Or.inr (Or.inl h)
        · right; right
          simp only [alignInner, List.mem_map, List.mem_filter, List.any_eq_true,
            beq_iff_eq]
          exact ⟨c, ⟨hca, d, hdb, hd1⟩, rfl⟩
  · intro c hc
    exact (List.mem_filter.mp hc).1
  · intro c hc
    simp only [alignInner, List.mem_map] at hc
    obtain ⟨c0, hc0, rfl⟩ := hc
    obtain ⟨hc0a, hany⟩ := List.mem_filter.mp hc0
    cases hfind : b.unitCols.find? (fun d => d.1 == c0.1) with
    | none =>
      exfalso
      have hsome : (b.unitCols.find? (fun d => d.1 == c0.1)).isSome := by
        rw [List.find?_isSome]
        exact List.any_eq_true.mp hany
      rw [hfind] at hsome
      simp at hsome
    | some d =>
      have hd1 : d.1 = c0.1 := by simpa using List.find?_some hfind
      refine ⟨d, List.mem_of_find?_eq_some hfind, hd1, ?_⟩
      simp [hfind]

/-- C5: for every train and test input on which the pipeline succeeds,
each final base table has exactly the row count of its input, and row `i`
of the final table is row `i` of the input (minus the dropped
`image_link` cell) extended with that row's feature cells — extraction,
encoding, and imputation never drop or reorder rows. -/
theorem claim_C5_rows_preserved (train test : Df) (out : PipelineOutput)
    (h : prepare train test = .ok out) :
    out.trainBase.rows.length = train.rows.length ∧
    out.testBase.rows.length = test.rows.length ∧
    (∀ j : ℕ, train.header.findIdx? (· == "image_link") = some j →
      ∀ (i : ℕ) (row : List Cell), train.rows[i]? = some row →
        ∃ fr, out.trainBase.rows[i]? = some (row.eraseIdx j ++ fr)) ∧
    (∀ j : ℕ, test.header.findIdx? (· == "image_link") = some j →
      ∀ (i : ℕ) (row : List Cell), test.rows[i]? = some row →
        ∃ fr, out.testBase.rows[i]? = some (row.eraseIdx j ++ fr)) := by
  obtain ⟨tcTr, tcTe, ftr, mm, mp, fte, mm2, mp2, jTr, jTe,
    hc1, hc2, hf1, hf2, hj1, hj2, ho1, ho2⟩ := prepare_ok h
  obtain ⟨-, -, -, hlen1⟩ := getColE_ok hc1
  obtain ⟨-, -, -, hlen2⟩ := getColE_ok hc2
  have hftr : ftr.pack_size.length = train.rows.length := by
    have := (create_feature_df_ok_lengths hf1).1
    simpa [hlen1] using this
  have hfte : fte.pack_size.length = test.rows.length := by
    have := (create_feature_df_ok_lengths hf2).1
    simpa [hlen2] using this
  have hA1 : (featureDfToDf (alignInner ftr fte).1).rows.length = train.rows.length := by
    rw [featureDfToDf_rows_length]
    exact hftr
  have hA2 : (featureDfToDf (alignInner ftr fte).2).rows.length = test.rows.length := by
    rw [featureDfToDf_rows_length]
    exact hfte
  refine ⟨?_, ?_, ?_, ?_⟩
  · rw [ho1]
    simp [hconcat, hA1]
  · rw [ho2]
    simp [hconcat, hA2]
  · intro j hj i row hrow
    have hjj : j = jTr := by
      have := hj1.symm.trans hj
      exact (Option.some.inj this).symm
    subst hjj
    have hi : i < train.rows.length := by
      rcases List.getElem?_eq_some.mp hrow with ⟨hlt, -⟩
      exact hlt
    have hi2 : i < (featureDfToDf (alignInner ftr fte).1).rows.length := by
      rw [hA1]
      exact hi
    obtain ⟨fr, hfr⟩ : ∃ fr, (featureDfToDf (alignInner ftr fte).1).rows[i]? = some fr :=
      ⟨_, List.getElem?_eq_getElem hi2⟩
    refine ⟨fr, ?_⟩
    rw [ho1]
    simp only [hconcat, List.getElem?_zipWith, List.getElem?_map, hrow, hfr]
    rfl
  · intro j hj i row hrow
    have hjj : j = jTe := by
      have := hj2.symm.trans hj
      exact (Option.some.inj this).symm
    subst hjj
    have hi : i < test.rows.length := by
      rcases List.getElem?_eq_some.mp hrow with ⟨hlt, -⟩
      exact hlt
    have hi2 : i < (featureDfToDf (alignInner ftr fte).2).rows.length := by
      rw [hA2]
      exact hi
    obtain ⟨fr, hfr⟩ : ∃ fr, (featureDfToDf (alignInner ftr fte).2).rows[i]? = some fr :=
      ⟨_, List.getElem?_eq_getElem hi2⟩
    refine ⟨fr, ?_⟩
    rw [ho2]
    simp only [hconcat, List.getElem?_zipWith, List.getElem?_map, hrow, hfr]
    rfl

theorem claim_C5_rows_preserved_witness :
    wOut.trainBase.rows.length = wTrain.rows.length ∧
    wOut.testBase.rows.length = wTest.rows.length :=
  ⟨(claim_C5_rows_preserved wTrain wTest wOut (by decide)).1,
   (claim_C5_rows_preserved wTrain wTest wOut (by decide)).2.1⟩

/-- C9: the derived target of the final train table is
`log_price = log(1 + price)` for every train row, so
`exp(log_price) - 1 = price` for positive prices, and the `log_price`
column is appended to the train output's header only, never to the test
output's header. -/
theorem claim_C9_log_price (train test : Df) (out : PipelineOutput)
    (h : prepare train test = .ok out)
    (hlp : "log_price" ∉ test.header)
    (cells : List Cell) (hpc : getColE out.trainBase "price" = .ok cells)
    (i : ℕ) (q : ℚ) (hcell : cells[i]? = some (.num q)) (hq : 0 < q) :
    trainLogPriceE out.trainBase = .ok (log1pSeries cells) ∧
    (log1pSeries cells)[i]? = some (some (Real.log (1 + (q : ℝ)))) ∧
    Real.exp (Real.log (1 + (q : ℝ))) - 1 = (q : ℝ) ∧
    "log_price" ∈ trainFinalHeader out ∧
    "log_price" ∉ testFinalHeader out := by
  obtain ⟨tcTr, tcTe, ftr, mm, mp, fte, mm2, mp2, jTr, jTe,
    hc1, hc2, hf1, hf2, hj1, hj2, ho1, ho2⟩ := prepare_ok h
  have h1q : (0 : ℝ) < 1 + (q : ℝ) := by
    have hq' : (0 : ℝ) < (q : ℝ) := by exact_mod_cast hq
    linarith
  refine ⟨?_, ?_, ?_, ?_, ?_⟩
  · rw [trainLogPriceE, hpc]
    rfl
  · simp [log1pSeries, hcell, cellToQ]
  · rw [Real.exp_log h1q]
    ring
  · simp [trainFinalHeader]
  · rw [testFinalHeader, ho2]
    simp only [hconcat]
    intro hmem
    rcases List.mem_append.mp hmem with hmem | hmem
    · exact hlp (List.mem_of_mem_eraseIdx hmem)
    · simp only [featureDfToDf, featureCols, List.mem_cons] at hmem
      rcases hmem with hmem | hmem | hmem
      · exact absurd hmem (by decide)
      · exact absurd hmem (by decide)
      · obtain ⟨c, hc, hceq⟩ := List.mem_map.mp hmem
        obtain ⟨c0, hc0a, hname⟩ := alignInner_snd_unitCols_names c hc
        obtain ⟨u, hu⟩ := create_feature_df_ok_unit_names hf1 c0 hc0a
        apply unit_name_ne_log_price u
        rw [← hu, ← hname]
        exact hceq

theorem claim_C9_log_price_witness :
    Real.exp (Real.log (1 + ((5 : ℚ) : ℝ))) - 1 = ((5 : ℚ) : ℝ) ∧
    "log_price" ∈ trainFinalHeader wOut ∧
    "log_price" ∉ testFinalHeader wOut :=
  ⟨(claim_C9_log_price wTrain wTest wOut (by decide) (by decide)
      [Cell.num 5] (by decide) 0 5 (by decide) (by norm_num)).2.2.1,
   (claim_C9_log_price wTrain wTest wOut (by decide) (by decide)
      [Cell.num 5] (by decide) 0 5 (by decide) (by norm_num)).2.2.2.1,
   (claim_C9_log_price wTrain wTest wOut (by decide) (by decide)
      [Cell.num 5] (by decide) 0 5 (by decide) (by norm_num)).2.2.2.2⟩

/-- C2: if the table the normalizer is fit on (the train table — the one
`create_feature_df` call made with both medians `None`) has zero rows, the
script aborts with the fatal row-count diagnostic before any feature work:
no median is ever coerced to a default and no downstream row is filled,
and no output file is written. -/
theorem claim_C2_empty_fit_table_aborts (train test : Df)
    (hz : train.rows.length = 0) :
    runScript (.ok train) (.ok test) = ⟨[], .error rowCountErrMsg⟩ ∧
    (runScript (.ok train) (.ok test)).written = [] ∧
    ∀ out : PipelineOutput, (runScript (.ok train) (.ok test)).result ≠ .ok out := by
  have hlt : train.rows.length < 75000 := by omega
  have hrun : runScript (.ok train) (.ok test) = ⟨[], .error rowCountErrMsg⟩ := by
    simp [runScript, hlt]
  refine ⟨hrun, by rw [hrun], ?_⟩
  intro out hcontra
  rw [hrun] at hcontra
  cases hcontra

theorem claim_C2_empty_fit_table_aborts_witness :
    runScript (.ok wEmptyTrain) (.ok wTest) = ⟨[], .error rowCountErrMsg⟩ ∧
    (runScript (.ok wEmptyTrain) (.ok wTest)).written = [] :=
  ⟨(claim_C2_empty_fit_table_aborts wEmptyTrain wTest (by decide)).1,
   (claim_C2_empty_fit_table_aborts wEmptyTrain wTest (by decide)).2.1⟩

/-- C8: a loaded train table with fewer than 75,000 rows makes the script
abort with the row-count diagnostic, which is distinct from the
load-failure diagnostic; nothing is written, and the outcome is the same
for any tables with the same train row count — no feature work happens
before the abort. -/
theorem claim_C8_row_count_check (train test : Df)
    (h : train.rows.length < 75000) :
    runScript (.ok train) (.ok test) = ⟨[], .error rowCountErrMsg⟩ ∧
    rowCountErrMsg ≠ loadErrMsg ∧
    (runScript (.ok train) (.ok test)).written = [] ∧
    ∀ train2 test2 : Df, train2.rows.length = train.rows.length →
      runScript (.ok train2) (.ok test2) = runScript (.ok train) (.ok test) := by
  have hrun : runScript (.ok train) (.ok test) = ⟨[], .error rowCountErrMsg⟩ := by
    simp [runScript, h]
  refine ⟨hrun, by decide, by rw [hrun], ?_⟩
  intro train2 test2 hlen
  have h2 : train2.rows.length < 75000 := by omega
  rw [hrun]
  simp [runScript, h2]

theorem wSmallTrain_rows_length : wSmallTrain.rows.length = 50000 := by
  show (List.replicate 50000 [Cell.str "", Cell.num 1, Cell.str "img"]).length = 50000
  rw [List.length_replicate]

theorem claim_C8_row_count_check_witness :
    runScript (.ok wSmallTrain) (.ok wTest) = ⟨[], .error rowCountErrMsg⟩ ∧
    rowCountErrMsg ≠ loadErrMsg ∧
    (runScript (.ok wSmallTrain) (.ok wTest)).written = [] :=
  ⟨(claim_C8_row_count_check wSmallTrain wTest
      (by rw [wSmallTrain_rows_length]; omega)).1,
   (claim_C8_row_count_check wSmallTrain wTest
      (by rw [wSmallTrain_rows_length]; omega)).2.1,
   (claim_C8_row_count_check wSmallTrain wTest
      (by rw [wSmallTrain_rows_length]; omega)).2.2.1⟩

end AmazonPrep
